import Mathlib

/-!
# Verification of the `@lumjs/web-core` events module

Shallow embedding of the event-registration subsystem of the repository
(the current `events.js`: the `onDelegatedEvent` / `onEvent` / `onEvents` /
`onEvents__off` family), together with theorems settling the frozen claims
about it.

Modelling conventions:

* A DOM `Element` is modelled by `ElemChain`: an element id together with
  its chain of ancestors (`parentElement` links).  Distinct DOM nodes are
  modelled with distinct ids, so JavaScript object identity (`===`)
  coincides with value equality of `ElemChain`.
* The dispatched event object is `EventObj`; the module's mutations of it
  (`captureTarget`, `originalTarget`, `target` overwrite via `def(ev, ...)`)
  are modelled by functional record update.
* Caller-supplied callables (`selector`, `validate`, the handler) receive
  the registration spec object (`opts`) as a trailing argument in the
  source.  That object is fixed at registration time (it is captured by the
  listener closure), so each such callable is modelled by its partial
  application to the spec: only the per-dispatch arguments are kept.  The
  per-dispatch event argument of a callable selector is kept explicitly
  (as `Option EventObj`, `none` modelling JavaScript `undefined`) because
  the source's call sites do not always supply it.
* Handler invocations are not interpreted; a dispatch returns the final
  event object together with the list of handler calls that were made
  (receiver and event argument), which is what the claims observe.
-/

namespace WebCore

/-- A DOM element: an id plus its `parentElement` chain.  `top i` is an
element whose `parentElement` is not an element (`null`). -/
inductive ElemChain where
  | top (i : Nat)
  | child (i : Nat) (parent : ElemChain)
deriving DecidableEq, Repr

/-- The element's identity (see the identity convention above). -/
def ElemChain.eid : ElemChain → Nat
  | .top i => i
  | .child i _ => i

/-- `Element.parentElement`: `none` models a parent that is not an
`Element` (`null`, or `Document` at the top of a real tree). -/
def ElemChain.parentElement : ElemChain → Option ElemChain
  | .top _ => none
  | .child _ p => some p

/-- The full candidate chain of an element: itself, then all ancestors. -/
def chainList : ElemChain → List ElemChain
  | .top i => [.top i]
  | .child i p => .child i p :: chainList p

/-- The dispatched event object (the envelope the module augments).
`target` is `Option` because `ev.target` may be a non-`Element`.
A freshly dispatched native event has only `target` set. -/
structure EventObj where
  target : Option ElemChain
  captureTarget : Option ElemChain := none
  originalTarget : Option ElemChain := none
deriving DecidableEq, Repr

/-- A freshly dispatched native event whose native target is `nt`. -/
def mkEvent (nt : Option ElemChain) : EventObj := { target := nt }

/-- The delegation predicate stored under `spec.selector`, by runtime kind:
a text (CSS) selector is its structural-match test on an element
(`targetElem.matches(selector)`); a callable selector is the function
`selector(targetElem, ev, opts)` with `opts` partially applied (see the
conventions above); `invalid` is a present value of any other kind. -/
inductive DSel where
  | text (m : ElemChain → Bool)
  | func (f : ElemChain → Option EventObj → Bool)
  | invalid

/-- The handler under `spec.handle`, by runtime kind.  The `Nat` is the
identity of the callable / object; its behaviour is not interpreted. -/
inductive DHandler where
  | fn (h : Nat)
  | obj (h : Nat)
  | other

/-- The fields of the registration spec (`opts`) that the delegated
listener closure reads at dispatch time (`onDelegatedEvent`, the
destructuring `let {target: parentElem, handle: handler, selector} = opts`
plus `opts.validate`).  `validate` is `validate(ev, opts)` with `opts`
partially applied; `none` models an absent (or non-function) value. -/
structure DSpec where
  validate : Option (EventObj → Bool) := none
  selector : Option DSel := none
  handler : DHandler := .other

/-- `selt`: the selector-kind code computed once at registration:
`SS = 1` for a text selector, `SF = 2` for a callable, `0` otherwise. -/
def seltOf : Option DSel → Nat
  | some (.text _) => 1
  | some (.func _) => 2
  | _ => 0

/-- The internal `findDelegate(targetElem, ev)` of `onDelegatedEvent`,
for `targetElem` an `Element`.  Tests the candidate against the selector
(by the precomputed kind code `selt`); on a hit returns the candidate; the
defensive invalid-kind branch logs a console error and returns `null`;
otherwise, if the candidate is the attachment root (`parentElem`,
compared with `===`) it returns `null`, else it recurses on
`targetElem.parentElement` — NOTE: the source's recursive call
`findDelegate(targetElem.parentElement)` does not pass `ev`, so the
event argument is `undefined` (`none`) in every recursive step. -/
def findDelegateEl (sel : Option DSel) (root : ElemChain) :
    ElemChain → Option EventObj → Option ElemChain
  | t, ev =>
    match sel with
    | some (.text m) =>
      if m t then some t
      else if t = root then none
      else
        match t with
        | .top _ => none
        | .child _ p => findDelegateEl sel root p none
    | some (.func f) =>
      if f t ev then some t
      else if t = root then none
      else
        match t with
        | .top _ => none
        | .child _ p => findDelegateEl sel root p none
    | _ => none

/-- `findDelegate` on an arbitrary value: a non-`Element` argument
(`null` from `parentElement`, or a non-`Element` `ev.target`) fails
immediately. -/
def findDelegate (sel : Option DSel) (root : ElemChain) :
    Option ElemChain → Option EventObj → Option ElemChain
  | none, _ => none
  | some t, ev => findDelegateEl sel root t ev

/-- Line `let delegate = selt ? findDelegate(ev.target) : parentElem`:
when the kind code is non-zero the walk runs (the source passes only
`ev.target`, so the `ev` parameter of `findDelegate` is `undefined`);
otherwise the attachment root itself is the delegate. -/
def resolveDelegate (sel : Option DSel) (root : ElemChain)
    (evTarget : Option ElemChain) : Option ElemChain :=
  if seltOf sel ≠ 0 then findDelegate sel root evTarget none
  else some root

/-- One recorded handler invocation: `handler.call(delegate, ev, opts)`
for a plain function, `handler.handleEvent(ev, opts)` for a capability
object. -/
inductive HandlerCall where
  | fnCall (h : Nat) (receiver : ElemChain) (ev : EventObj)
  | objCall (h : Nat) (ev : EventObj)
deriving DecidableEq, Repr

/-- Outcome of one dispatch: the event object after any augmentation, and
the handler invocations made. -/
structure DispatchResult where
  ev : EventObj
  calls : List HandlerCall
deriving DecidableEq, Repr

/-- The body of the listener after the validator gate: resolve the
delegate; if one was found set `captureTarget` to `this`, remap `target`
(preserving the native target under `originalTarget`) when the delegate
is not identical to `ev.target`, then invoke the handler. -/
def listenerCore (sp : DSpec) (root : ElemChain) (thisArg : ElemChain)
    (ev : EventObj) : DispatchResult :=
  match resolveDelegate sp.selector root ev.target with
  | some d =>
    let ev1 := { ev with captureTarget := some thisArg }
    let ev2 :=
      if some d ≠ ev.target then
        { ev1 with originalTarget := ev.target, target := some d }
      else ev1
    match sp.handler with
    | .fn h => ⟨ev2, [.fnCall h d ev2]⟩
    | .obj h => ⟨ev2, [.objCall h ev2]⟩
    | .other => ⟨ev2, []⟩
  | none => ⟨ev, []⟩

/-- The listener closure built by `onDelegatedEvent` (the `listener`
function): if a validator is present and returns a falsy value the
dispatch stops at once; otherwise the core runs.  `thisArg` is the `this`
of the invocation (the node the host dispatched on). -/
def runListener (sp : DSpec) (root : ElemChain) (thisArg : ElemChain)
    (ev : EventObj) : DispatchResult :=
  match sp.validate with
  | some v => if v ev then listenerCore sp root thisArg ev else ⟨ev, []⟩
  | none => listenerCore sp root thisArg ev

/-- Whether the validator gate passes for this event. -/
def validatePasses (sp : DSpec) (ev : EventObj) : Bool :=
  match sp.validate with
  | some v => v ev
  | none => true

/-- A native dispatch of a fresh event whose native target is `nt`, on a
listener attached to `root`: the host invokes the listener with
`this = root` (the current target). -/
def dispatchAt (sp : DSpec) (root : ElemChain) (nt : Option ElemChain) :
    DispatchResult :=
  runListener sp root root (mkEvent nt)

/-- The candidates `findDelegate` walks: the element itself and its
ancestors, cut off at (and including) the attachment root. -/
def walkCandidates (root : ElemChain) : ElemChain → List ElemChain
  | .top i => [.top i]
  | .child i p =>
    .child i p :: (if ElemChain.child i p = root then [] else walkCandidates root p)

/-! Concrete three-level chain for the dispatch examples of claim C1:
`root → mid → leaf` with a selector matching only `leaf`. -/

def c1root : ElemChain := .top 0
def c1mid : ElemChain := .child 1 c1root
def c1leaf : ElemChain := .child 2 c1mid

/-- A delegated registration whose text selector matches exactly the
element with id 2 (`leaf`), with a plain-function handler. -/
def c1spec : DSpec :=
  { selector := some (.text (fun t => t.eid == 2)), handler := .fn 7 }

/-! Concrete data for claim C6 (the event argument of a callable
selector).  Chain: `root (id 0) → leaf (id 1)`. -/

def c6root : ElemChain := .top 0
def c6leaf : ElemChain := .child 1 c6root

/-- A callable selector that accepts exactly the root candidate, and only
when its event argument is `undefined`: an observer for the value the
walk actually passes as the second argument. -/
def c6specA : DSpec :=
  { selector := some (.func (fun c evO => c.eid == 0 && evO.isNone)),
    handler := .fn 3 }

/-- A callable selector that accepts any candidate whenever its event
argument is present: if the walk passed the dispatched event, this would
match at the very first candidate. -/
def c6specB : DSpec :=
  { selector := some (.func (fun _ evO => evO.isSome)), handler := .fn 4 }

/-! Concrete data for claim C9 (delegation predicate of an invalid
kind).  Chain: `root (id 0) → leaf (id 1)`. -/

def c9root : ElemChain := .top 0
def c9leaf : ElemChain := .child 1 c9root

/-- A delegated registration whose `selector` is present but neither a
text selector nor a callable (so its kind code `selt` is 0). -/
def c9spec : DSpec := { selector := some .invalid, handler := .fn 5 }

/-- Claim C10's registration shape: a validator, no selector, a
plain-function handler. -/
def c10spec (v : EventObj → Bool) (h : Nat) : DSpec :=
  { validate := some v, selector := none, handler := .fn h }

/-!
## Registration-time model

The argument classifier of `onEvent`, the options resolver, the
registration side effects (`addEventListener` / `removeEventListener`),
the batch registrar `onEvents`, and the deregistration controller
`onEvents__off`.

At this level caller-supplied callables and handler-capability objects
are opaque and identified by a `Nat` (their JavaScript object identity):
only classification and attach/detach bookkeeping happen here.
-/

/-- A handler value: a plain function or a `handleEvent` object. -/
inductive HVal where
  | fn (id : Nat)
  | obj (id : Nat)
deriving DecidableEq, Repr

/-- A selector value as classified: a string or a function. -/
inductive SVal where
  | str (s : String)
  | fn (id : Nat)
deriving DecidableEq, Repr

/-- The accumulating `opts` object of `onEvent`, restricted to the keys
the module itself reads.  A field is `some v` when the key is present.
(A named-options argument carrying other keys merges them into the
object, but no later code of the module reads them, so they are not
modelled; keys present with a falsy value are likewise outside the
claims and not modelled.) -/
structure COpts where
  target : Option ElemChain := none
  event : Option String := none
  handle : Option HVal := none
  selector : Option SVal := none
  validate : Option Nat := none
  off : Option Bool := none
  capture : Option Bool := none
deriving DecidableEq, Repr

/-- JavaScript truthiness of `opts.handle` (functions and objects are
always truthy). -/
def truthyH : Option HVal → Bool
  | none => false
  | some _ => true

/-- JavaScript truthiness of `opts.selector`: the empty string is falsy,
any function is truthy. -/
def truthyS : Option SVal → Bool
  | none => false
  | some (.str s) => s != ""
  | some (.fn _) => true

/-- JavaScript truthiness of `opts.event` (a string). -/
def truthyStr : Option String → Bool
  | none => false
  | some s => s != ""

/-- JavaScript truthiness of `opts.validate` (a function). -/
def truthyV : Option Nat → Bool
  | none => false
  | some _ => true

/-- One positional argument of `onEvent`, by runtime kind:
an `Element`, an object with a `handleEvent` method (id), a plain
object of named options, a function (id), or a string. -/
inductive Arg where
  | elem (e : ElemChain)
  | handlerObj (h : Nat)
  | namedOpts (o : COpts)
  | fn (id : Nat)
  | str (s : String)
deriving DecidableEq, Repr

/-- `Object.assign(opts, arg)` on one key: a key present in the source
overwrites the destination. -/
def keyMerge (dst src : Option α) : Option α :=
  match src with
  | some v => some v
  | none => dst

/-- `Object.assign(opts, arg)` over the modelled keys. -/
def assignNamed (o n : COpts) : COpts :=
  { target := keyMerge o.target n.target
    event := keyMerge o.event n.event
    handle := keyMerge o.handle n.handle
    selector := keyMerge o.selector n.selector
    validate := keyMerge o.validate n.validate
    off := keyMerge o.off n.off
    capture := keyMerge o.capture n.capture }

/-- One iteration of `onEvent`'s argument loop.  An `Element` is
assigned to `target` unconditionally; an object with `handleEvent`
becomes the handler only if `handle` is still falsy (otherwise it falls
through to `Object.assign`, merging only its own keys — none that the
module reads); a function fills `handle`, then `selector`, then
`validate` (a further one is logged and discarded); a string fills
`event`, then `selector` (a further one is logged and discarded). -/
def classifyStep (o : COpts) (a : Arg) : COpts :=
  match a with
  | .elem e => { o with target := some e }
  | .handlerObj h =>
    if truthyH o.handle = false then { o with handle := some (.obj h) }
    else o
  | .namedOpts n => assignNamed o n
  | .fn f =>
    if truthyH o.handle = false then { o with handle := some (.fn f) }
    else if truthyS o.selector = false then { o with selector := some (.fn f) }
    else if truthyV o.validate = false then { o with validate := some f }
    else o
  | .str s =>
    if truthyStr o.event = false then { o with event := some s }
    else if truthyS o.selector = false then { o with selector := some (.str s) }
    else o

/-- The whole argument-classification loop of `onEvent` (starting from
the fresh `opts = {}`). -/
def onEventClassify (args : List Arg) : COpts :=
  args.foldl classifyStep {}

/-- Whether an argument kind can write the `target` field. -/
def writesTarget : Arg → Bool
  | .elem _ => true
  | .namedOpts n => n.target.isSome
  | _ => false

/-- The identity of a listener value held in `opts.listener`: either the
handler itself (direct binding) or the delegation closure freshly created
by `onDelegatedEvent` (identified by a registration counter). -/
inductive LVal where
  | hv (h : HVal)
  | del (id : Nat)
deriving DecidableEq, Repr

/-- `eventOptions(opts)`: of the `{capture, once, passive, signal}`
record only the `capture` flag participates in the host's
attach/detach listener matching, so the record is modelled by that flag
(the same value is recomputed identically for attach and detach). -/
def eventOptions (o : COpts) : Bool := o.capture == some true

/-- The event-name string handed to `addEventListener`: an absent
`opts.event` is coerced by the host to the string form of `undefined`. -/
def eventKey (o : COpts) : String := o.event.getD "undefined"

/-- One host-registered listener binding:
(target identity, event name, listener identity, capture flag). -/
abbrev AttEntry := Nat × String × LVal × Bool

/-- The host's listener bookkeeping for all targets. -/
abbrev AttachState := List AttEntry

/-- Host `addEventListener`: adding an identical binding is a no-op. -/
def addEvLis (st : AttachState) (en : AttEntry) : AttachState :=
  if en ∈ st then st else st ++ [en]

/-- Host `removeEventListener`: removes a matching binding if present,
silently does nothing otherwise. -/
def rmEvLis (st : AttachState) (en : AttEntry) : AttachState :=
  st.erase en

/-- Mutable world at registration time: the host's listener bindings and
a fresh-identity counter for delegation closures. -/
structure Sys where
  attached : AttachState
  nextId : Nat
deriving DecidableEq, Repr

/-- The initial world: nothing attached. -/
def sys0 : Sys := ⟨[], 0⟩

/-- The registration record returned by `onEvent`: the resolved `opts`
plus the fields attached during construction (`listener`, `delegated`,
and whether `off` was replaced by a detach closure). -/
structure Reg where
  copts : COpts
  listener : Option LVal
  delegated : Bool
  hasOff : Bool
deriving DecidableEq, Repr

/-- Registration side of `onDelegatedEvent(opts)`: a non-`Element`
`opts.target` is a fatal thrown `TypeError` (Invalid-Target); otherwise
a fresh listener closure is created and attached to the target with the
resolved listener options, and returned. -/
def onDelegatedEvent (o : COpts) (sys : Sys) : Except String (LVal × Sys) :=
  match o.target with
  | none => .error "Invalid parent element"
  | some t =>
    let lv := LVal.del sys.nextId
    .ok (lv,
      ⟨addEvLis sys.attached (t.eid, eventKey o, lv, eventOptions o),
       sys.nextId + 1⟩)

/-- `onEvent(...args)`: classify the arguments; if the resolved
`selector` or `validate` is truthy register through `onDelegatedEvent`,
otherwise bind the handler directly with `addEventListener` (an absent
target is the host's thrown `TypeError`; an absent handler is the
host's null-callback no-op); finally, `off: true` is replaced by a
detach capability. -/
def onEvent (args : List Arg) (sys : Sys) : Except String (Reg × Sys) :=
  let o := onEventClassify args
  if truthyS o.selector || truthyV o.validate then
    match onDelegatedEvent o sys with
    | .error e => .error e
    | .ok (lv, sys2) =>
      .ok (⟨o, some lv, true, o.off == some true⟩, sys2)
  else
    match o.target with
    | none => .error "cannot read addEventListener of undefined"
    | some t =>
      let lv := o.handle.map LVal.hv
      let sys2 :=
        match lv with
        | some l =>
          ⟨addEvLis sys.attached (t.eid, eventKey o, l, eventOptions o),
           sys.nextId⟩
        | none => sys
      .ok (⟨o, lv, false, o.off == some true⟩, sys2)

/-- The detach closure installed under `opts.off` when `off: true` was
passed: `removeEventListener(opts.event, opts.listener, eventOptions)`.
(Calling `off()` on a record that was created without `off: true` is a
host `TypeError`; every record this model detaches carries the
capability, so the guard is not modelled.) -/
def regDetach (r : Reg) (st : AttachState) : AttachState :=
  match r.copts.target, r.listener with
  | some t, some l => rmEvLis st (t.eid, eventKey r.copts, l, eventOptions r.copts)
  | _, _ => st

/-- A key of the batch registry's mixed-key `Map`: a target `Element`
(by identity) or an event-name string. -/
inductive MKey where
  | el (eid : Nat)
  | ev (s : String)
deriving DecidableEq, Repr

/-- `Map.get`. -/
def mapGet (m : List (MKey × List Reg)) (k : MKey) : Option (List Reg) :=
  match m with
  | [] => none
  | (k2, v) :: rest => if k2 = k then some v else mapGet rest k

/-- `Map.set`: overwrites in place, appends new keys in insertion
order. -/
def mapSet (m : List (MKey × List Reg)) (k : MKey) (v : List Reg) :
    List (MKey × List Reg) :=
  match m with
  | [] => [(k, v)]
  | (k2, v2) :: rest =>
    if k2 = k then (k2, v) :: rest else (k2, v2) :: mapSet rest k v

/-- The `MultiReg` registry returned by `onEvents`: the flat ordered
sequence of registrations and the mixed-key lookup map. -/
structure MultiReg where
  all : List Reg := []
  map : List (MKey × List Reg) := []
deriving DecidableEq, Repr

/-- One positional argument of `onEvents`: an `Element`, a collection of
elements, an event-name string, or any other value (passed through to
`onEvent`). -/
inductive EArg where
  | el (e : ElemChain)
  | coll (es : List ElemChain)
  | str (s : String)
  | other (a : Arg)
deriving DecidableEq, Repr

/-- `Set.add`: identity-deduplicating, first-seen order. -/
def addUnique [DecidableEq α] (l : List α) (x : α) : List α :=
  if x ∈ l then l else l ++ [x]

/-- Character-level helper for `trim().split(/\s+/)`. -/
def isWS (c : Char) : Bool := c.isWhitespace

/-- Closes the token being accumulated (in reverse) if it is nonempty. -/
def pushTok (cur : List Char) (toks : List String) : List String :=
  if cur.isEmpty then toks else toks ++ [String.mk cur.reverse]

/-- Accumulates the maximal whitespace-free runs of a character list. -/
def wsTokensGo : List Char → List Char → List String → List String
  | [], cur, toks => pushTok cur toks
  | c :: cs, cur, toks =>
    if isWS c then wsTokensGo cs [] (pushTok cur toks)
    else wsTokensGo cs (c :: cur) toks

/-- `arg.trim().split(/\s+/)`: on a string with any non-whitespace this
equals the list of its maximal whitespace-free runs; on a whitespace-only
or empty string, JavaScript yields `[""]`. -/
def splitWS (s : String) : List String :=
  let toks := wsTokensGo s.data [] []
  if toks.isEmpty then [""] else toks

/-- One step of `onEvents`'s bucketing loop over
(target set, event-name set, pass-through arguments). -/
def bucketStep (acc : List ElemChain × List String × List Arg) (a : EArg) :
    List ElemChain × List String × List Arg :=
  match a with
  | .el e => (addUnique acc.1 e, acc.2.1, acc.2.2)
  | .coll es => (es.foldl addUnique acc.1, acc.2.1, acc.2.2)
  | .str s => (acc.1, (splitWS s).foldl addUnique acc.2.1, acc.2.2)
  | .other g => (acc.1, acc.2.1, acc.2.2 ++ [g])

/-- `onEvents`'s argument bucketing. -/
def bucket (l : List EArg) : List ElemChain × List String × List Arg :=
  l.foldl bucketStep ([], [], [])

/-- The reserved options object `{target, event, off: true}` built for
each (target, event) pair. -/
def reservedOpts (tgt : ElemChain) (evn : String) : COpts :=
  { target := some tgt, event := some evn, off := some true }

/-- The argument list `[opts, ...allArgs, opts]` handed to `onEvent`,
with the reserved object both before and after the pass-throughs. -/
def regPairArgs (allArgs : List Arg) (tgt : ElemChain) (evn : String) :
    List Arg :=
  Arg.namedOpts (reservedOpts tgt evn) :: allArgs
    ++ [Arg.namedOpts (reservedOpts tgt evn)]

/-- The inner loop of `onEvents`: register `tgt` against each event
name, recording each registration in the flat sequence, the event's
lookup list, and the target's list under construction. -/
def regEvents (allArgs : List Arg) (tgt : ElemChain) :
    List String → MultiReg → Sys → List Reg →
    Except String (MultiReg × Sys × List Reg)
  | [], mr, sys, tlist => .ok (mr, sys, tlist)
  | evn :: rest, mr, sys, tlist =>
    match onEvent (regPairArgs allArgs tgt evn) sys with
    | .error e => .error e
    | .ok (edef, sys2) =>
      let elist := (mapGet mr.map (.ev evn)).getD []
      regEvents allArgs tgt rest
        ⟨mr.all ++ [edef], mapSet mr.map (.ev evn) (elist ++ [edef])⟩
        sys2 (tlist ++ [edef])

/-- The outer loop of `onEvents`: after each target's inner loop, its
list is recorded in the lookup map under the target key. -/
def regTargets (allArgs : List Arg) (evns : List String) :
    List ElemChain → MultiReg → Sys → Except String (MultiReg × Sys)
  | [], mr, sys => .ok (mr, sys)
  | tgt :: rest, mr, sys =>
    match regEvents allArgs tgt evns mr sys [] with
    | .error e => .error e
    | .ok (mr2, sys2, tlist) =>
      regTargets allArgs evns rest
        ⟨mr2.all, mapSet mr2.map (.el tgt.eid) tlist⟩ sys2

/-- `onEvents(...args)`: bucket the arguments, then register the full
cross product of targets and event names. -/
def onEvents (eargs : List EArg) (sys : Sys) :
    Except String (MultiReg × Sys) :=
  let b := bucket eargs
  regTargets b.2.2 b.2.1 b.1 ⟨[], []⟩ sys

/-- `MultiReg.off(...keys)`: with no keys, detach every registration in
the flat sequence in order; with keys, detach each key's sub-sequence
when the key is in the lookup map and silently skip unknown keys. -/
def onEvents__off (mr : MultiReg) (ks : List MKey) (st : AttachState) :
    AttachState :=
  match ks with
  | [] => mr.all.foldl (fun s r => regDetach r s) st
  | _ =>
    ks.foldl (fun s k =>
      match mapGet mr.map k with
      | some l => l.foldl (fun s2 r => regDetach r s2) s
      | none => s) st

/-- The (target, event) pair a registration resolved. -/
def regPairOf (r : Reg) : Option ElemChain × Option String :=
  (r.copts.target, r.copts.event)

/-- The target × event-name cross product, in registration order. -/
def crossPairs : List ElemChain → List String →
    List (Option ElemChain × Option String)
  | [], _ => []
  | t :: ts, es => es.map (fun e => (some t, some e)) ++ crossPairs ts es

/-! Concrete batch example for claims C7 and C8: two targets (one of
them arriving both directly and inside a collection), the two event
names arriving split from one padded string plus a duplicate, and one
pass-through handler function. -/

def c7tA : ElemChain := .top 10
def c7tB : ElemChain := .top 20

def c7args : List EArg :=
  [.el c7tA, .coll [c7tB, c7tA], .str " click   keydown ", .str "click",
   .other (.fn 99)]

/-- The registry the example call builds. -/
def ex7mr : MultiReg :=
  match onEvents c7args sys0 with
  | .ok (mr, _) => mr
  | .error _ => ⟨[], []⟩

/-- The host bindings after the example call. -/
def ex7st : AttachState :=
  match onEvents c7args sys0 with
  | .ok (_, s) => s.attached
  | .error _ => []

/-- The example's four host bindings, for readability of the C8
statements. -/
def entAclick : AttEntry := (10, "click", .hv (.fn 99), false)
def entAkey : AttEntry := (10, "keydown", .hv (.fn 99), false)
def entBclick : AttEntry := (20, "click", .hv (.fn 99), false)
def entBkey : AttEntry := (20, "keydown", .hv (.fn 99), false)

/-! Further concrete registrations used to instantiate the theorems that
carry hypotheses. -/

/-- A delegated registration whose text selector matches the root
element (id 0): dispatching below the root resolves a delegate that
differs from the native target. -/
def c2spec : DSpec :=
  { selector := some (.text (fun t => t.eid == 0)), handler := .fn 11 }
def c2root : ElemChain := .top 0
def c2leaf : ElemChain := .child 1 c2root

/-- A validator that accepts exactly the events whose `target` is an
element. -/
def c3v : EventObj → Bool := fun e => e.target.isSome

/-- A registration with the validator `c3v`, a text selector matching
id 1, and a plain-function handler. -/
def c3spec : DSpec :=
  { validate := some c3v, selector := some (.text (fun t => t.eid == 1)),
    handler := .fn 12 }

/-- A validator used to instantiate claim C10's theorem. -/
def c10v : EventObj → Bool := fun e => e.target.isSome

/-- A concrete registration record used to instantiate the detach
idempotence statement. -/
def c8reg : Reg :=
  ⟨reservedOpts c7tA "click", some (.hv (.fn 99)), false, true⟩

/-!
## Theorems
-/

/-- For a text selector, the walk returns exactly the first candidate of
`walkCandidates` that passes the structural-match test (the event
argument is irrelevant to a text selector). -/
lemma findDelegateEl_text_eq_find (m : ElemChain → Bool) (root : ElemChain) :
    ∀ (t : ElemChain) (ev : Option EventObj),
      findDelegateEl (some (DSel.text m)) root t ev
        = (walkCandidates root t).find? m := by
  intro t
  induction t with
  | top i =>
    intro ev
    by_cases h : m (.top i) <;> simp [findDelegateEl, walkCandidates, List.find?, h]
  | child i p ih =>
    intro ev
    by_cases h : m (.child i p)
    · simp [findDelegateEl, walkCandidates, List.find?, h]
    · by_cases h2 : ElemChain.child i p = root
      · simp [findDelegateEl, walkCandidates, List.find?, ← h2, h]
      · simp [findDelegateEl, walkCandidates, List.find?, h, h2, ih]

/-- The candidate list is the prefix of the full ancestor chain up to
and including the first occurrence of the attachment root (the whole
chain when the root does not occur): the walk tests the root itself but
never any node above it. -/
lemma walkCandidates_eq_chain (root : ElemChain) :
    ∀ t : ElemChain,
      walkCandidates root t
        = (chainList t).takeWhile (fun c => decide (c ≠ root))
          ++ ((chainList t).dropWhile (fun c => decide (c ≠ root))).take 1 := by
  intro t
  induction t with
  | top i =>
    by_cases h : ElemChain.top i = root <;>
      simp [walkCandidates, chainList, List.takeWhile, List.dropWhile, h]
  | child i p ih =>
    by_cases h : ElemChain.child i p = root <;>
      simp [walkCandidates, chainList, List.takeWhile, List.dropWhile, h, ih]

/-- Claim C1: the delegate is resolved by walking the parent chain from
the event's native target, returning the first candidate that passes
the selector test; the walk stops at the attachment root (never testing
any node above it) while honouring a match on the root itself; and on
the concrete chain root → mid → leaf with a selector matching only
`leaf`, a dispatch at `leaf` invokes the handler exactly once with
delegate `leaf`, while a dispatch at `mid` invokes it zero times. -/
theorem C1_delegation_walk :
    (∀ (m : ElemChain → Bool) (root t : ElemChain) (ev : Option EventObj),
      findDelegateEl (some (DSel.text m)) root t ev
        = (walkCandidates root t).find? m)
    ∧ (∀ (root t : ElemChain),
      walkCandidates root t
        = (chainList t).takeWhile (fun c => decide (c ≠ root))
          ++ ((chainList t).dropWhile (fun c => decide (c ≠ root))).take 1)
    ∧ (dispatchAt c1spec c1root (some c1leaf)).calls
        = [HandlerCall.fnCall 7 c1leaf
            { target := some c1leaf, captureTarget := some c1root }]
    ∧ dispatchAt c1spec c1root (some c1mid) = ⟨mkEvent (some c1mid), []⟩ :=
  ⟨fun m root t ev => findDelegateEl_text_eq_find m root t ev,
   fun root t => walkCandidates_eq_chain root t,
   by decide, by decide⟩

/-- When the validator gate passes, the listener is its core. -/
lemma runListener_of_passes (sp : DSpec) (root thisArg : ElemChain)
    (ev : EventObj) (h : validatePasses sp ev = true) :
    runListener sp root thisArg ev = listenerCore sp root thisArg ev := by
  unfold runListener
  cases hvv : sp.validate with
  | none => rfl
  | some v =>
    have hve : v ev = true := by
      unfold validatePasses at h
      rw [hvv] at h
      simpa using h
    simp [hve]

/-- The event object produced by the core when a delegate was found. -/
lemma listenerCore_ev_of_some (sp : DSpec) (root thisArg : ElemChain)
    (ev : EventObj) (d : ElemChain)
    (h : resolveDelegate sp.selector root ev.target = some d) :
    (listenerCore sp root thisArg ev).ev
      = (if some d ≠ ev.target then
          { ev with captureTarget := some thisArg,
                    originalTarget := ev.target, target := some d }
         else { ev with captureTarget := some thisArg }) := by
  unfold listenerCore
  rw [h]
  by_cases hne : some d = ev.target <;> cases sp.handler <;> simp [hne]

/-- Claim C2: on a dispatch that resolves a delegate, the listener sets
`captureTarget` to the attachment root, and it adds `originalTarget`
(the native target) and overwrites `target` with the delegate exactly
when the delegate is not identical to the native target; when no
delegate is resolved, the event is left untouched and no handler
runs. -/
theorem C2_envelope_mutation (sp : DSpec) (root : ElemChain)
    (nt : Option ElemChain) (hv : validatePasses sp (mkEvent nt) = true) :
    (∀ d : ElemChain, resolveDelegate sp.selector root nt = some d →
      (dispatchAt sp root nt).ev.captureTarget = some root
      ∧ (some d ≠ nt →
          (dispatchAt sp root nt).ev.originalTarget = nt
          ∧ (dispatchAt sp root nt).ev.target = some d)
      ∧ (some d = nt →
          (dispatchAt sp root nt).ev.originalTarget = none
          ∧ (dispatchAt sp root nt).ev.target = nt))
    ∧ (resolveDelegate sp.selector root nt = none →
        dispatchAt sp root nt = ⟨mkEvent nt, []⟩) := by
  have hrun : dispatchAt sp root nt = listenerCore sp root root (mkEvent nt) :=
    runListener_of_passes sp root root (mkEvent nt) hv
  constructor
  · intro d hd
    have hev := listenerCore_ev_of_some sp root root (mkEvent nt) d hd
    rw [hrun]
    by_cases hne : some d = nt
    · simp [mkEvent, hne] at hev
      simp [hev, mkEvent, hne]
    · have : some d ≠ (mkEvent nt).target := by simp [mkEvent, hne]
      simp [mkEvent, this] at hev
      simp [hev, mkEvent, hne]
  · intro hd
    rw [hrun]
    unfold listenerCore
    have hmk : (mkEvent nt).target = nt := rfl
    rw [hmk, hd]

/-- Witness for C2: a registration whose text selector matches the root
(id 0), dispatched at a child, exercises the delegate-differs
branch. -/
theorem C2_envelope_mutation_witness :
    validatePasses c2spec (mkEvent (some c2leaf)) = true
    ∧ ((∀ d : ElemChain,
        resolveDelegate c2spec.selector c2root (some c2leaf) = some d →
        (dispatchAt c2spec c2root (some c2leaf)).ev.captureTarget = some c2root
        ∧ (some d ≠ some c2leaf →
            (dispatchAt c2spec c2root (some c2leaf)).ev.originalTarget
              = some c2leaf
            ∧ (dispatchAt c2spec c2root (some c2leaf)).ev.target = some d)
        ∧ (some d = some c2leaf →
            (dispatchAt c2spec c2root (some c2leaf)).ev.originalTarget = none
            ∧ (dispatchAt c2spec c2root (some c2leaf)).ev.target
                = some c2leaf))
      ∧ (resolveDelegate c2spec.selector c2root (some c2leaf) = none →
          dispatchAt c2spec c2root (some c2leaf)
            = ⟨mkEvent (some c2leaf), []⟩)) :=
  ⟨rfl, C2_envelope_mutation c2spec c2root (some c2leaf) rfl⟩

/-- Claim C3: a dispatch on which the validator returns a falsy value
stops immediately — no handler invocation and no change to the event —
and a dispatch on which it returns a truthy value proceeds exactly as
it would for the same registration without a validator (the
registration stays attached; a dispatch has no effect on the
registration itself). -/
theorem C3_validator_veto (sp : DSpec) (v : EventObj → Bool)
    (root thisArg : ElemChain) (evf evt : EventObj)
    (hval : sp.validate = some v) (hf : v evf = false) (ht : v evt = true) :
    runListener sp root thisArg evf = ⟨evf, []⟩
    ∧ runListener sp root thisArg evt
        = runListener { sp with validate := none } root thisArg evt := by
  constructor
  · simp [runListener, hval, hf]
  · simp [runListener, hval, ht]
    rfl

/-- Witness for C3: the validator `c3v` rejects an event with no
element target and accepts one with an element target. -/
theorem C3_validator_veto_witness :
    (c3spec.validate = some c3v ∧ c3v (mkEvent none) = false
      ∧ c3v (mkEvent (some (.top 1))) = true)
    ∧ (runListener c3spec (.top 0) (.top 0) (mkEvent none) = ⟨mkEvent none, []⟩
      ∧ runListener c3spec (.top 0) (.top 0) (mkEvent (some (.top 1)))
          = runListener { c3spec with validate := none } (.top 0) (.top 0)
              (mkEvent (some (.top 1)))) :=
  ⟨⟨rfl, rfl, rfl⟩,
   C3_validator_veto c3spec c3v (.top 0) (.top 0) (mkEvent none)
     (mkEvent (some (.top 1))) rfl rfl rfl⟩

/-- Claim C4: for one target element, one handler function and one
event-name string, all six orders of the three positional arguments
resolve the same registration spec (same target, same event name, same
handler). -/
theorem C4_permutation_invariance (e : ElemChain) (f : Nat) (s : String) :
    onEventClassify [.elem e, .fn f, .str s]
        = { target := some e, handle := some (.fn f), event := some s }
    ∧ onEventClassify [.elem e, .str s, .fn f]
        = { target := some e, handle := some (.fn f), event := some s }
    ∧ onEventClassify [.fn f, .elem e, .str s]
        = { target := some e, handle := some (.fn f), event := some s }
    ∧ onEventClassify [.fn f, .str s, .elem e]
        = { target := some e, handle := some (.fn f), event := some s }
    ∧ onEventClassify [.str s, .elem e, .fn f]
        = { target := some e, handle := some (.fn f), event := some s }
    ∧ onEventClassify [.str s, .fn f, .elem e]
        = { target := some e, handle := some (.fn f), event := some s } :=
  ⟨rfl, rfl, rfl, rfl, rfl, rfl⟩

/-- Counterexample to claim C5: with two target elements the classifier
resolves the second one, not the first — the first-seen target is
overwritten, not kept. -/
theorem C5_counterexample :
    (onEventClassify
        [.elem (.top 1), .elem (.top 2), .fn 0, .str "click"]).target
      = some (.top 2)
    ∧ (ElemChain.top 2) ≠ (ElemChain.top 1) := ⟨rfl, by decide⟩

/-- A non-target-writing argument never changes the resolved target. -/
lemma classifyStep_target_of_not_writes (o : COpts) (a : Arg)
    (h : writesTarget a = false) :
    (classifyStep o a).target = o.target := by
  cases a with
  | elem e => simp [writesTarget] at h
  | handlerObj hh =>
    simp only [classifyStep]
    split <;> rfl
  | namedOpts n =>
    cases hn : n.target with
    | some v => simp [writesTarget, hn] at h
    | none => simp [classifyStep, assignNamed, keyMerge, hn]
  | fn f =>
    simp only [classifyStep]
    split
    · rfl
    · split
      · rfl
      · split <;> rfl
  | str s =>
    simp only [classifyStep]
    split
    · rfl
    · split <;> rfl

/-- Folding over non-target-writing arguments preserves the target. -/
lemma foldl_target_of_no_writes :
    ∀ (l : List Arg) (o : COpts),
      (∀ a ∈ l, writesTarget a = false) →
      (l.foldl classifyStep o).target = o.target := by
  intro l
  induction l with
  | nil => intro o _; rfl
  | cons a rest ih =>
    intro o h
    have ha : writesTarget a = false := h a (by simp)
    have hrest : ∀ b ∈ rest, writesTarget b = false :=
      fun b hb => h b (by simp [hb])
    simp only [List.foldl_cons]
    rw [ih (classifyStep o a) hrest, classifyStep_target_of_not_writes o a ha]

/-- Claim C5 amended: a later target element argument silently
overwrites the spec's target (last assignment wins, no diagnostic):
after the last target-writing argument, that element is the resolved
target. -/
theorem C5_amended (l1 l2 : List Arg) (e : ElemChain)
    (h : ∀ a ∈ l2, writesTarget a = false) :
    (onEventClassify (l1 ++ Arg.elem e :: l2)).target = some e := by
  unfold onEventClassify
  rw [List.foldl_append]
  simp only [List.foldl_cons]
  rw [foldl_target_of_no_writes l2 _ h]
  rfl

/-- Witness for the amended C5. -/
theorem C5_amended_witness :
    (∀ a ∈ [Arg.str "click"], writesTarget a = false)
    ∧ (onEventClassify
        ([Arg.fn 0] ++ Arg.elem (.top 3) :: [Arg.str "click"])).target
      = some (.top 3) :=
  ⟨by decide, C5_amended [Arg.fn 0] [Arg.str "click"] (.top 3) (by decide)⟩

/-- Claim C6 (the event argument of a callable selector): a selector
that matches the root only when its event argument is `undefined` does
resolve the root on a dispatch at the child (so the handler runs), and
a selector that matches any candidate whenever its event argument is
present resolves nothing (so the handler never runs): the walk passes
`undefined`, never the dispatched event, to the callable selector, at
the first candidate as well as at every ancestor. -/
theorem C6_selector_event_argument :
    (dispatchAt c6specA c6root (some c6leaf)).calls
      = [HandlerCall.fnCall 3 c6root
          { target := some c6root, captureTarget := some c6root,
            originalTarget := some c6leaf }]
    ∧ (dispatchAt c6specB c6root (some c6leaf)).calls = [] := by
  refine ⟨?_, ?_⟩ <;> decide

/-- The reserved options object, merged last, pins target, event and
the detach request of every pair registration. -/
lemma classify_regPairArgs (allArgs : List Arg) (tgt : ElemChain) (evn : String) :
    (onEventClassify (regPairArgs allArgs tgt evn)).target = some tgt
    ∧ (onEventClassify (regPairArgs allArgs tgt evn)).event = some evn
    ∧ (onEventClassify (regPairArgs allArgs tgt evn)).off = some true := by
  have hsplit : regPairArgs allArgs tgt evn
      = (Arg.namedOpts (reservedOpts tgt evn) :: allArgs)
        ++ [Arg.namedOpts (reservedOpts tgt evn)] := by
    simp [regPairArgs]
  rw [hsplit]
  unfold onEventClassify
  rw [List.foldl_append]
  simp [classifyStep, assignNamed, keyMerge, reservedOpts]

/-- Every pair registration of the batch registrar succeeds and carries
the pair's target and event name and the detach capability. -/
lemma onEvent_regPair_ok (allArgs : List Arg) (tgt : ElemChain) (evn : String)
    (sys : Sys) :
    ∃ r sys2, onEvent (regPairArgs allArgs tgt evn) sys = .ok (r, sys2)
      ∧ r.copts.target = some tgt ∧ r.copts.event = some evn
      ∧ r.hasOff = true := by
  obtain ⟨h1, h2, h3⟩ := classify_regPairArgs allArgs tgt evn
  unfold onEvent onDelegatedEvent
  simp only [h1, h3]
  split
  · exact ⟨_, _, rfl, h1, h2, rfl⟩
  · exact ⟨_, _, rfl, h1, h2, rfl⟩

/-- The inner loop appends one registration per event name, in
order. -/
lemma regEvents_ok (allArgs : List Arg) (tgt : ElemChain) :
    ∀ (evns : List String) (mr : MultiReg) (sys : Sys) (tlist : List Reg),
      ∃ mr2 sys2 nw,
        regEvents allArgs tgt evns mr sys tlist = .ok (mr2, sys2, tlist ++ nw)
        ∧ mr2.all = mr.all ++ nw
        ∧ nw.map regPairOf = evns.map (fun e => (some tgt, some e)) := by
  intro evns
  induction evns with
  | nil =>
    intro mr sys tlist
    exact ⟨mr, sys, [], by simp [regEvents], by simp, by simp⟩
  | cons evn rest ih =>
    intro mr sys tlist
    obtain ⟨r, sysr, hok, ht, he, _⟩ := onEvent_regPair_ok allArgs tgt evn sys
    obtain ⟨mr2, sys2, nw, hrec, hall, hmap⟩ :=
      ih ⟨mr.all ++ [r],
          mapSet mr.map (.ev evn) (((mapGet mr.map (.ev evn)).getD []) ++ [r])⟩
        sysr (tlist ++ [r])
    refine ⟨mr2, sys2, r :: nw, ?_, ?_, ?_⟩
    · simp only [regEvents, hok]
      rw [hrec]
      simp
    · rw [hall]
      simp
    · simp [regPairOf, ht, he, hmap]

/-- The outer loop appends one registration per (target, event)
pair, in cross-product order. -/
lemma regTargets_ok (allArgs : List Arg) (evns : List String) :
    ∀ (ts : List ElemChain) (mr : MultiReg) (sys : Sys),
      ∃ mr2 sys2 nw,
        regTargets allArgs evns ts mr sys = .ok (mr2, sys2)
        ∧ mr2.all = mr.all ++ nw
        ∧ nw.map regPairOf = crossPairs ts evns := by
  intro ts
  induction ts with
  | nil =>
    intro mr sys
    exact ⟨mr, sys, [], by simp [regTargets], by simp, by simp [crossPairs]⟩
  | cons tgt rest ih =>
    intro mr sys
    obtain ⟨mr1, sys1, nw1, hok1, hall1, hmap1⟩ :=
      regEvents_ok allArgs tgt evns mr sys []
    obtain ⟨mr2, sys2, nw2, hok2, hall2, hmap2⟩ :=
      ih ⟨mr1.all, mapSet mr1.map (.el tgt.eid) ([] ++ nw1)⟩ sys1
    refine ⟨mr2, sys2, nw1 ++ nw2, ?_, ?_, ?_⟩
    · rw [regTargets, hok1]
      exact hok2
    · rw [hall2]
      simp [hall1]
    · simp [crossPairs, hmap1, hmap2]

/-- Claim C7: every `onEvents` call creates exactly one registration
per (target, event-name) pair of the bucketed cross product, in order;
and on the concrete example — a duplicated target, a collection, a
padded two-name event string plus a duplicate name, and a pass-through
handler — the buckets deduplicate in first-seen order and exactly four
registrations are created, each recorded in the flat sequence, in its
target's lookup list, and in its event name's lookup list, with four
host bindings attached. -/
theorem C7_cross_product :
    (∀ (eargs : List EArg) (sys : Sys),
      ∃ mr sys2, onEvents eargs sys = .ok (mr, sys2)
        ∧ mr.all.map regPairOf
            = crossPairs (bucket eargs).1 (bucket eargs).2.1)
    ∧ bucket c7args = ([c7tA, c7tB], ["click", "keydown"], [Arg.fn 99])
    ∧ ex7mr.all.map regPairOf
        = [(some c7tA, some "click"), (some c7tA, some "keydown"),
           (some c7tB, some "click"), (some c7tB, some "keydown")]
    ∧ (mapGet ex7mr.map (.el 10)).map (fun l => l.map regPairOf)
        = some [(some c7tA, some "click"), (some c7tA, some "keydown")]
    ∧ (mapGet ex7mr.map (.el 20)).map (fun l => l.map regPairOf)
        = some [(some c7tB, some "click"), (some c7tB, some "keydown")]
    ∧ (mapGet ex7mr.map (.ev "click")).map (fun l => l.map regPairOf)
        = some [(some c7tA, some "click"), (some c7tB, some "click")]
    ∧ (mapGet ex7mr.map (.ev "keydown")).map (fun l => l.map regPairOf)
        = some [(some c7tA, some "keydown"), (some c7tB, some "keydown")]
    ∧ ex7st = [entAclick, entAkey, entBclick, entBkey] := by
  refine ⟨?_, by decide, by decide, by decide, by decide, by decide, by decide,
    by decide⟩
  intro eargs sys
  obtain ⟨mr2, sys2, nw, hok, hall, hmap⟩ :=
    regTargets_ok (bucket eargs).2.2 (bucket eargs).2.1 (bucket eargs).1
      ⟨[], []⟩ sys
  refine ⟨mr2, sys2, hok, ?_⟩
  rw [hall]
  simpa using hmap

/-- Claim C8: `off()` with no keys detaches every registration of the
flat sequence (on the example, emptying the host's bindings); with
keys, each key found in the lookup has its sub-sequence detached while
unknown keys are silently ignored; detaching an already-detached
registration is a no-op, so a target and an event name together detach
exactly the union of their sub-sequences (on the example, leaving only
the uninvolved binding attached and dispatch-active). -/
theorem C8_off_semantics :
    (∀ (mr : MultiReg) (k : MKey) (st : AttachState),
      mapGet mr.map k = none → onEvents__off mr [k] st = st)
    ∧ (∀ (r : Reg) (st : AttachState), st.Nodup →
        regDetach r (regDetach r st) = regDetach r st)
    ∧ onEvents__off ex7mr [] ex7st = []
    ∧ onEvents__off ex7mr [.el 10] ex7st = [entBclick, entBkey]
    ∧ onEvents__off ex7mr [.el 10, .ev "click"] ex7st = [entBkey]
    ∧ onEvents__off ex7mr [.el 999] ex7st = ex7st
    ∧ onEvents__off ex7mr [.el 10] (onEvents__off ex7mr [.el 10] ex7st)
        = onEvents__off ex7mr [.el 10] ex7st := by
  refine ⟨?_, ?_, by decide, by decide, by decide, by decide, by decide⟩
  · intro mr k st h
    simp [onEvents__off, h]
  · intro r st hnd
    unfold regDetach
    cases htg : r.copts.target with
    | none => rfl
    | some t =>
      cases hls : r.listener with
      | none => rfl
      | some l =>
        show List.erase
            (List.erase st (t.eid, eventKey r.copts, l, eventOptions r.copts))
            (t.eid, eventKey r.copts, l, eventOptions r.copts)
          = List.erase st (t.eid, eventKey r.copts, l, eventOptions r.copts)
        by_cases hmem : (t.eid, eventKey r.copts, l, eventOptions r.copts) ∈ st
        · have hni : (t.eid, eventKey r.copts, l, eventOptions r.copts)
              ∉ st.erase (t.eid, eventKey r.copts, l, eventOptions r.copts) := by
            intro hc
            rcases (List.Nodup.mem_erase_iff hnd).mp hc with ⟨hne, _⟩
            exact hne rfl
          exact List.erase_of_not_mem hni
        · rw [List.erase_of_not_mem hmem]
          exact List.erase_of_not_mem hmem

/-- Witness for C8: an empty registry ignores an unknown key, and a
concrete double detach is a no-op. -/
theorem C8_off_semantics_witness :
    (mapGet (⟨[], []⟩ : MultiReg).map (.ev "nope") = none
      ∧ onEvents__off ⟨[], []⟩ [.ev "nope"] [entAclick] = [entAclick])
    ∧ (([entAclick] : AttachState).Nodup
      ∧ regDetach c8reg (regDetach c8reg [entAclick])
          = regDetach c8reg [entAclick]) :=
  ⟨⟨rfl, C8_off_semantics.1 ⟨[], []⟩ (.ev "nope") [entAclick] rfl⟩,
   ⟨by decide, C8_off_semantics.2.1 c8reg [entAclick] (by decide)⟩⟩

/-- Counterexample to claim C9: with a delegation predicate that is
neither text nor callable, the kind code is 0, the walk is skipped (the
attachment root becomes the delegate without any selector test), and
the dispatch completes normally — the handler is invoked — instead of
any fatal thrown error being raised. -/
theorem C9_counterexample :
    seltOf c9spec.selector = 0
    ∧ resolveDelegate c9spec.selector c9root (some c9leaf) = some c9root
    ∧ dispatchAt c9spec c9root (some c9leaf)
        = ⟨{ target := some c9root, captureTarget := some c9root,
             originalTarget := some c9leaf },
           [.fnCall 5 c9root
             { target := some c9root, captureTarget := some c9root,
               originalTarget := some c9leaf }]⟩ := by
  refine ⟨rfl, rfl, ?_⟩
  decide

/-- Claim C9 amended: a delegation predicate of invalid kind never
reaches the selector test — the listener skips the walk and takes the
attachment root as the delegate, invoking the handler normally — and
the defensive invalid-kind branch inside the walk, were it entered,
logs a console error and yields no delegate rather than throwing. -/
theorem C9_amended :
    (∀ (root t : ElemChain) (ev : Option EventObj),
      findDelegateEl (some DSel.invalid) root t ev = none)
    ∧ (∀ (root : ElemChain) (nt : Option ElemChain),
      resolveDelegate (some DSel.invalid) root nt = some root)
    ∧ (∀ (h : Nat) (root : ElemChain) (nt : Option ElemChain),
      (dispatchAt ⟨none, some DSel.invalid, .fn h⟩ root nt).calls.length = 1) := by
  refine ⟨?_, ?_, ?_⟩
  · intro root t ev
    cases t <;> simp [findDelegateEl]
  · intro root nt
    rfl
  · intro h root nt
    by_cases hnt : some root = nt
    · subst hnt
      simp [dispatchAt, runListener, listenerCore, resolveDelegate, seltOf,
        mkEvent]
    · simp [dispatchAt, runListener, listenerCore, resolveDelegate, seltOf,
        mkEvent, hnt]

/-- Claim C10: with a validator but no selector, any dispatch the
validator accepts skips the walk entirely, takes the attachment root as
the delegate, always invokes the handler with the root as receiver, and
remaps the event's `target` to the root (keeping the native target
under `originalTarget`) exactly when the native target differs from the
root. -/
theorem C10_validator_only (v : EventObj → Bool) (h : Nat) (root : ElemChain)
    (nt : Option ElemChain) (hv : v (mkEvent nt) = true) :
    resolveDelegate (c10spec v h).selector root nt = some root
    ∧ (dispatchAt (c10spec v h) root nt).calls
        = [.fnCall h root (dispatchAt (c10spec v h) root nt).ev]
    ∧ (nt ≠ some root →
        (dispatchAt (c10spec v h) root nt).ev
          = { target := some root, captureTarget := some root,
              originalTarget := nt })
    ∧ (nt = some root →
        (dispatchAt (c10spec v h) root nt).ev
          = { target := nt, captureTarget := some root,
              originalTarget := none }) := by
  have hv2 : v { target := nt, captureTarget := none, originalTarget := none }
      = true := hv
  refine ⟨rfl, ?_, ?_, ?_⟩
  · by_cases hnt : some root = nt
    · subst hnt
      simp [dispatchAt, runListener, listenerCore, resolveDelegate, seltOf,
        mkEvent, c10spec, hv2]
    · simp [dispatchAt, runListener, listenerCore, resolveDelegate, seltOf,
        mkEvent, c10spec, hv2, hnt]
  · intro hne
    have hnt : ¬ (some root = nt) := fun hh => hne hh.symm
    simp [dispatchAt, runListener, listenerCore, resolveDelegate, seltOf,
      mkEvent, c10spec, hv2, hnt]
  · intro heq
    subst heq
    simp [dispatchAt, runListener, listenerCore, resolveDelegate, seltOf,
      mkEvent, c10spec, hv2]

/-- Witness for C10: the validator `c10v` accepts a dispatch at a child
of the root. -/
theorem C10_validator_only_witness :
    c10v (mkEvent (some (ElemChain.child 1 (.top 0)))) = true
    ∧ (resolveDelegate (c10spec c10v 2).selector (.top 0)
          (some (ElemChain.child 1 (.top 0))) = some (.top 0)
      ∧ (dispatchAt (c10spec c10v 2) (.top 0)
            (some (ElemChain.child 1 (.top 0)))).calls
          = [.fnCall 2 (.top 0)
              (dispatchAt (c10spec c10v 2) (.top 0)
                (some (ElemChain.child 1 (.top 0)))).ev]
      ∧ (some (ElemChain.child 1 (.top 0)) ≠ some (ElemChain.top 0) →
          (dispatchAt (c10spec c10v 2) (.top 0)
              (some (ElemChain.child 1 (.top 0)))).ev
            = { target := some (.top 0), captureTarget := some (.top 0),
                originalTarget := some (ElemChain.child 1 (.top 0)) })
      ∧ (some (ElemChain.child 1 (.top 0)) = some (ElemChain.top 0) →
          (dispatchAt (c10spec c10v 2) (.top 0)
              (some (ElemChain.child 1 (.top 0)))).ev
            = { target := some (ElemChain.child 1 (.top 0)),
                captureTarget := some (.top 0), originalTarget := none })) :=
  ⟨rfl, C10_validator_only c10v 2 (.top 0)
    (some (ElemChain.child 1 (.top 0))) rfl⟩

end WebCore
